import Mathlib

/-!
Verification of the image-normalization pipeline of the math_to_latex
repository (MathToLatexConversion/lib/image_preprocessing.py).

The pipeline is embedded shallowly:

* a numpy 2-D uint8 array is a Raster: an explicit (height, width) shape plus
  a row-major list of rows, exactly as numpy carries shape metadata next to
  the buffer; a 3-channel (BGR) input array is a ColorRaster;
* the OpenCV primitives the code calls (cvtColor, GaussianBlur,
  adaptiveThreshold, findContours, minAreaRect, warpAffine, resize) are
  modelled at the level the claims depend on: shape behaviour, argument and
  error behaviour, branch structure, and data flow are concrete; the pixel
  arithmetic that no claim inspects (blur weights, threshold values, cubic
  interpolation, area averaging, the minAreaRect angle value) is supplied by
  an abstract record of pixel-level functions (CvOps), over which all
  theorems are universally quantified;
* Python floats are modelled exactly where their rounding is observable:
  new_w = int(w0 * (target_h / float(h0))) is reproduced bit-for-bit by an
  executable IEEE-754 binary64 round-to-nearest-even model over exact
  integer arithmetic (flRat, flScaled, newWidth below), valid on the domain
  w0, h0 < 2^53 where the intermediate conversions are exact;
* the two-state object protocol (construct, run_preprocessing,
  get_processed_image) is explicit state passing over an ImageProcessing
  structure; a Python exception is the error branch of Except.
-/

/-- A single-channel uint8 numpy array: shape metadata plus row-major data,
mirroring numpy which stores the shape separately from the buffer. -/
structure Raster where
  height : Nat
  width : Nat
  data : List (List Nat)
deriving DecidableEq

/-- A 3-channel (BGR) uint8 numpy array; each pixel is a (b, g, r) triple. -/
structure ColorRaster where
  height : Nat
  width : Nat
  data : List (List (Nat × Nat × Nat))
deriving DecidableEq

/-- Row-major pixel grid of the given shape generated by a pixel function. -/
def mkData (h w : Nat) (f : Nat → Nat → Nat) : List (List Nat) :=
  (List.range h).map (fun i => (List.range w).map (f i))

/-- Color pixel grid of the given shape generated by a pixel function. -/
def mkDataC (h w : Nat) (f : Nat → Nat → Nat × Nat × Nat) :
    List (List (Nat × Nat × Nat)) :=
  (List.range h).map (fun i => (List.range w).map (f i))

/-- np.zeros((h, w), dtype=np.uint8). -/
def zerosRaster (h w : Nat) : Raster :=
  ⟨h, w, mkData h w (fun _ _ => 0)⟩

/-- Every pixel of the raster is zero. -/
def AllZero (r : Raster) : Prop :=
  ∀ row ∈ r.data, ∀ v ∈ row, v = 0

/-- An OpenCV contour: a non-empty sequence of (x, y) pixel coordinates
(cv2.findContours never returns an empty point sequence). -/
structure Contour where
  first : Nat × Nat
  rest : List (Nat × Nat)
deriving DecidableEq

/-- The point sequence of a contour. -/
def Contour.points (c : Contour) : List (Nat × Nat) :=
  c.first :: c.rest

/-- An axis-aligned rectangle (x, y, w, h) as returned by cv2.boundingRect. -/
structure Rect where
  x : Nat
  y : Nat
  w : Nat
  h : Nat
deriving DecidableEq

/-- Errors raised by the OpenCV primitives that the pipeline can hit:
an empty source raster (cvtColor / resize assert a non-empty source) or an
empty destination size (resize asserts a non-empty dsize). -/
inductive CvErr where
  | emptySrc
  | emptySize
deriving DecidableEq

/-- The ValueError raised by get_processed_image before a successful run. -/
inductive ProcErr where
  | notProcessed
deriving DecidableEq

/-- cv2 color-conversion code used by the pipeline (cv2.COLOR_BGR2GRAY). -/
inductive ColorConv where
  | bgr2gray
deriving DecidableEq

/-- cv2 adaptive-threshold method flag (cv2.ADAPTIVE_THRESH_GAUSSIAN_C). -/
inductive AdaptiveMethod where
  | gaussianC
deriving DecidableEq

/-- cv2 threshold-type flag (cv2.THRESH_BINARY_INV). -/
inductive ThresholdType where
  | binaryInv
deriving DecidableEq

/-- cv2 contour-retrieval mode (cv2.RETR_EXTERNAL). -/
inductive RetrMode where
  | external
deriving DecidableEq

/-- cv2 contour-approximation method (cv2.CHAIN_APPROX_SIMPLE). -/
inductive ApproxMethod where
  | simple
deriving DecidableEq

/-- cv2 interpolation flag (cv2.INTER_CUBIC for the rotation,
cv2.INTER_AREA for the final resize). -/
inductive InterpFlag where
  | cubic
  | area
deriving DecidableEq

/-- cv2 border mode (cv2.BORDER_REPLICATE for the rotation). -/
inductive BorderMode where
  | replicate
deriving DecidableEq

/-- The 2x3 affine matrix produced by cv2.getRotationMatrix2D, kept in its
parametric form (center, angle, scale); the float matrix entries themselves
are never inspected by the code, only passed to cv2.warpAffine.  The angle
is an opaque value flowing from cv2.minAreaRect; its numeric type is
irrelevant to every claim, so it is carried as an Int. -/
structure RotMat where
  center : Nat × Nat
  angle : Int
  scale : Int
deriving DecidableEq

/-- cv2.getRotationMatrix2D(center, angle, scale). -/
def getRotationMatrix2D (center : Nat × Nat) (angle : Int) (scale : Int) :
    RotMat :=
  ⟨center, angle, scale⟩

/-- The pixel-level behaviour of the OpenCV primitives: everything the
claims never inspect (interpolation arithmetic, blur weights, threshold
decisions, which contours the scanner finds, the minAreaRect angle value).
All theorems are universally quantified over this record; the shape,
branching and error behaviour of each primitive is fixed concretely by the
wrapper functions below. -/
structure CvOps where
  grayPix : ColorConv → ColorRaster → Nat → Nat → Nat
  blurPix : Nat × Nat → Nat → Raster → Nat → Nat → Nat
  threshPix : Nat → AdaptiveMethod → ThresholdType → Nat → Nat → Raster →
    Nat → Nat → Nat
  findContours : Raster → RetrMode → ApproxMethod → List Contour
  minAreaRectAngle : Contour → Int
  warpPix : Raster → RotMat → InterpFlag → BorderMode → Nat → Nat → Nat
  resizePix : Raster → Nat → Nat → InterpFlag → Nat → Nat → Nat

/-- cv2.cvtColor(image, code): asserts a non-empty source, emits a
single-channel raster of the same shape. -/
def cvtColor (ops : CvOps) (img : ColorRaster) (code : ColorConv) :
    Except CvErr Raster :=
  if img.height = 0 ∨ img.width = 0 then .error CvErr.emptySrc
  else .ok ⟨img.height, img.width, mkData img.height img.width
    (ops.grayPix code img)⟩

/-- cv2.GaussianBlur(src, ksize, sigmaX): shape-preserving. -/
def gaussianBlur (ops : CvOps) (src : Raster) (ksize : Nat × Nat)
    (sigma : Nat) : Raster :=
  ⟨src.height, src.width, mkData src.height src.width
    (ops.blurPix ksize sigma src)⟩

/-- cv2.adaptiveThreshold(src, maxValue, adaptiveMethod, thresholdType,
blockSize, C): shape-preserving. -/
def adaptiveThreshold (ops : CvOps) (src : Raster) (maxValue : Nat)
    (method : AdaptiveMethod) (ttype : ThresholdType) (blockSize : Nat)
    (c : Nat) : Raster :=
  ⟨src.height, src.width, mkData src.height src.width
    (ops.threshPix maxValue method ttype blockSize c src)⟩

/-- Minimum of an initial value and a list of naturals. -/
def natsMin : Nat → List Nat → Nat
  | a, [] => a
  | a, b :: t => natsMin (min a b) t

/-- Maximum of an initial value and a list of naturals. -/
def natsMax : Nat → List Nat → Nat
  | a, [] => a
  | a, b :: t => natsMax (max a b) t

/-- cv2.boundingRect(contour): the tight axis-aligned box of the contour
points, with the OpenCV convention w = max x - min x + 1 and
h = max y - min y + 1. -/
def boundingRect (ct : Contour) : Rect :=
  let xs := ct.rest.map Prod.fst
  let ys := ct.rest.map Prod.snd
  ⟨natsMin ct.first.1 xs, natsMin ct.first.2 ys,
   natsMax ct.first.1 xs - natsMin ct.first.1 xs + 1,
   natsMax ct.first.2 ys - natsMin ct.first.2 ys + 1⟩

/-- Twice the polygon area of a contour: the absolute value of the shoelace
sum over the closed point sequence.  cv2.contourArea returns this divided
by 2.0; since halving is strictly monotone the Python
max(contours, key=cv2.contourArea) selection is unchanged by comparing
twice-areas instead (the float comparison is exact, the sums being integers
far below 2^53). -/
def contourArea2 (ct : Contour) : Nat :=
  (List.zipWith
    (fun (p q : Nat × Nat) => (p.1 : Int) * q.2 - (q.1 : Int) * p.2)
    ct.points (ct.points.rotate 1)).sum.natAbs

/-- Python max(xs, key=f) over a non-empty list: keeps the current best and
replaces it only on a strictly greater key, hence returns the first
maximal element. -/
def maxByFirst (f : Contour → Nat) : Contour → List Contour → Contour
  | best, [] => best
  | best, c :: t => maxByFirst f (if f best < f c then c else best) t

/-- numpy 2-D slicing r[y:y+h, x:x+w], including numpy's clamping of
out-of-range slice bounds. -/
def cropSlice (r : Raster) (x y w h : Nat) : Raster :=
  ⟨min (y + h) r.height - min y r.height,
   min (x + w) r.width - min x r.width,
   ((r.data.drop y).take h).map (fun row => (row.drop x).take w)⟩

/-- cv2.warpAffine(src, M, dsize, flags, borderMode): emits a raster of
exactly the destination size dsize = (width, height). -/
def warpAffine (ops : CvOps) (src : Raster) (m : RotMat)
    (dsize : Nat × Nat) (flag : InterpFlag) (border : BorderMode) : Raster :=
  ⟨dsize.2, dsize.1, mkData dsize.2 dsize.1 (ops.warpPix src m flag border)⟩

/-- cv2.resize(src, (w, h), interpolation): asserts a non-empty destination
size and a non-empty source, emits a raster of exactly the requested
size. -/
def cvResize (ops : CvOps) (src : Raster) (w h : Nat) (flag : InterpFlag) :
    Except CvErr Raster :=
  if w = 0 ∨ h = 0 then .error CvErr.emptySize
  else if src.height = 0 ∨ src.width = 0 then .error CvErr.emptySrc
  else .ok ⟨h, w, mkData h w (ops.resizePix src w h flag)⟩

/-! ### Exact model of the Python float computation of the new width

The code computes scale = target_h / float(h0) and new_w = int(w0 * scale)
in IEEE-754 binary64 arithmetic.  The functions below reproduce that
computation exactly over integers: flRat rounds an exact positive rational
a / b to the nearest binary64 value (round-to-nearest, ties-to-even), which
is precisely what one IEEE division or multiplication of exactly
representable operands produces.  Valid for operands below 2^53, where the
int-to-float conversions involved are exact; every shape reachable in the
pipeline is far below that. -/

/-- Fuel-driven floor of the base-2 logarithm (fuel at least the argument
suffices). -/
def log2F : Nat → Nat → Nat
  | 0, _ => 0
  | fuel + 1, n => if n ≤ 1 then 0 else log2F fuel (n / 2) + 1

/-- Decides 2 ^ e ≤ a / b by exact integer cross-multiplication. -/
def gePow2 (a b : Nat) (e : Int) : Bool :=
  if 0 ≤ e then b * 2 ^ e.toNat ≤ a else b ≤ a * 2 ^ (-e).toNat

/-- Floor of the base-2 logarithm of the positive rational a / b. -/
def ratLog2 (a b : Nat) : Int :=
  let e0 : Int := (log2F a a : Int) - (log2F b b : Int)
  if gePow2 a b (e0 + 1) then e0 + 1
  else if gePow2 a b e0 then e0
  else e0 - 1

/-- Integer division of a by b rounded to the nearest integer, ties to
even. -/
def rdivNat (a b : Nat) : Nat :=
  let q := a / b
  let r := a % b
  if 2 * r < b then q
  else if b < 2 * r then q + 1
  else if q % 2 = 0 then q else q + 1

/-- A positive normal binary64 value m * 2 ^ e with 2^52 ≤ m < 2^53. -/
structure F64 where
  m : Nat
  e : Int
deriving DecidableEq

/-- Rounds the positive rational a / b (a, b ≥ 1) to the nearest binary64
value, ties to even: the exact result of one IEEE division of exactly
representable operands. -/
def flRat (a b : Nat) : F64 :=
  let l := ratLog2 a b
  let k : Int := 52 - l
  let ab := if 0 ≤ k then (a * 2 ^ k.toNat, b) else (a, b * 2 ^ (-k).toNat)
  let m := rdivNat ab.1 ab.2
  if m = 2 ^ 53 then ⟨2 ^ 52, l - 51⟩ else ⟨m, l - 52⟩

/-- Rounds the positive value p * 2 ^ e (p ≥ 1) to the nearest binary64
value. -/
def flScaled (p : Nat) (e : Int) : F64 :=
  if 0 ≤ e then flRat (p * 2 ^ e.toNat) 1 else flRat p (2 ^ (-e).toNat)

/-- IEEE binary64 product of an exactly representable natural with a
positive normal double: the exact product rounded once. -/
def fmul64 (w0 : Nat) (d : F64) : F64 :=
  flScaled (w0 * d.m) d.e

/-- Python int(x) for a positive double: truncation toward zero. -/
def F64.floorNat (x : F64) : Nat :=
  if 0 ≤ x.e then x.m * 2 ^ x.e.toNat else x.m / 2 ^ (-x.e).toNat

/-- The resized width exactly as the code computes it:
int(w0 * (tH / float(h0))) in binary64 arithmetic.  Because of the double
rounding this can differ from floor(w0 * tH / h0): at w0 = h0 = 49,
tH = 64 it yields 63 where the exact floor is 64. -/
def newWidth (w0 h0 tH : Nat) : Nat :=
  (fmul64 w0 (flRat tH h0)).floorNat

/-! ### The ImageProcessing object and its pipeline -/

/-- The ImageProcessing object: the input raster and the configuration
literals set by the constructor, plus the processed_image field that run
fills (None before the first successful run). -/
structure ImageProcessing where
  input_image : ColorRaster
  gaussian_kernal : Nat
  gaussian_sigma : Nat
  threshold_color : Nat
  block_size : Nat
  constant : Nat
  target_h : Nat
  processed_image : Option Raster
deriving DecidableEq

/-- The constructor: stores the input image, fixes the configuration
literals (5, 1, 255, 15, 2, 64) and leaves processed_image = None. -/
def ImageProcessing.init (image : ColorRaster) : ImageProcessing :=
  ⟨image, 5, 1, 255, 15, 2, 64, none⟩

/-- The crop binary[y:y+h, x:x+w] for the bounding rectangle of a
contour. -/
def cropOf (binary : Raster) (ct : Contour) : Raster :=
  cropSlice binary (boundingRect ct).x (boundingRect ct).y
    (boundingRect ct).w (boundingRect ct).h

/-- Steps 4b and 5 of run_preprocessing for the selected contour: crop the
binary raster to the contour's bounding rectangle, take the minAreaRect
angle of the SAME full-image contour, and rotate the crop about
(w_crop // 2, h_crop // 2) by that angle with bicubic interpolation,
replicated borders and unchanged canvas size. -/
def rotateStage (ops : CvOps) (binary : Raster) (largest_contour : Contour) :
    Raster :=
  let cropped := cropOf binary largest_contour
  let angle := ops.minAreaRectAngle largest_contour
  let center := (cropped.width / 2, cropped.height / 2)
  let m := getRotationMatrix2D center angle 1
  warpAffine ops cropped m (cropped.width, cropped.height)
    InterpFlag.cubic BorderMode.replicate

/-- Step 4 of run_preprocessing: find the external contours of the binary
raster; if any exist, select the one of largest area (Python max keeps the
first maximal element) and crop-and-rotate; otherwise pass the binary
raster through unchanged. -/
def contourStage (ops : CvOps) (binary : Raster) : Raster :=
  match ops.findContours binary RetrMode.external ApproxMethod.simple with
  | [] => binary
  | c :: cs => rotateStage ops binary (maxByFirst contourArea2 c cs)

/-- Step 6 of run_preprocessing: if either dimension of the incoming raster
is zero, emit the all-zero target_h x target_h square; otherwise resize to
(int(w0 * (target_h / float(h0))), target_h) with INTER_AREA. -/
def heightNormalize (ops : CvOps) (tH : Nat) (a : Raster) :
    Except CvErr Raster :=
  if a.height = 0 ∨ a.width = 0 then .ok (zerosRaster tH tH)
  else cvResize ops a (newWidth a.width a.height tH) tH InterpFlag.area

/-- Steps 1 to 3 of run_preprocessing: grayscale, Gaussian blur with a
square kernel, inverted Gaussian adaptive threshold. -/
def binaryOf (ops : CvOps) (image : ColorRaster) (gk gs tc bs ct : Nat) :
    Except CvErr Raster := do
  let gray ← cvtColor ops image ColorConv.bgr2gray
  let blurred := gaussianBlur ops gray (gk, gk) gs
  pure (adaptiveThreshold ops blurred tc AdaptiveMethod.gaussianC
    ThresholdType.binaryInv bs ct)

/-- Steps 1 to 5: the raster entering height normalization. -/
def adjustedOf (ops : CvOps) (image : ColorRaster) (gk gs tc bs ct : Nat) :
    Except CvErr Raster := do
  let binary ← binaryOf ops image gk gs tc bs ct
  pure (contourStage ops binary)

/-- The whole pipeline body of run_preprocessing as a pure function of the
input image and the configuration fields. -/
def pipeline (ops : CvOps) (image : ColorRaster)
    (gk gs tc bs ct tH : Nat) : Except CvErr Raster := do
  let adjusted ← adjustedOf ops image gk gs tc bs ct
  heightNormalize ops tH adjusted

/-- The pipeline applied to the fields of an ImageProcessing object. -/
def pipelineOf (ops : CvOps) (s : ImageProcessing) : Except CvErr Raster :=
  pipeline ops s.input_image s.gaussian_kernal s.gaussian_sigma
    s.threshold_color s.block_size s.constant s.target_h

/-- run_preprocessing: execute the pipeline and store the result in
processed_image; an exception in any stage propagates and, the store being
the method's only assignment, leaves the object unchanged. -/
def run_preprocessing (ops : CvOps) (s : ImageProcessing) :
    Except CvErr ImageProcessing :=
  match pipelineOf ops s with
  | .ok output => .ok { s with processed_image := some output }
  | .error e => .error e

/-- get_processed_image: returns the stored raster, or raises ValueError
when processed_image is still None. -/
def get_processed_image (s : ImageProcessing) : Except ProcErr Raster :=
  match s.processed_image with
  | none => .error ProcErr.notProcessed
  | some r => .ok r

/-- The object state after a call of run_preprocessing whose exception, if
any, the caller swallows: on success the updated object, on failure the
unchanged one. -/
def runState (ops : CvOps) (s : ImageProcessing) : ImageProcessing :=
  match run_preprocessing ops s with
  | .ok s' => s'
  | .error _ => s

/-- The object state after n successive calls of run_preprocessing. -/
def runSeq (ops : CvOps) (s : ImageProcessing) : Nat → ImageProcessing
  | 0 => s
  | n + 1 => runState ops (runSeq ops s n)

/-- The selected contour is the FIRST element of maximal key in the list:
the list splits around it, everything before it has a strictly smaller key,
and nothing in the list has a larger key.  This is the tie-breaking
behaviour of Python max with a key function. -/
def IsFirstMax (f : Contour → Nat) (l : List Contour) (m : Contour) : Prop :=
  ∃ l₁ l₂, l = l₁ ++ m :: l₂ ∧ (∀ x ∈ l₁, f x < f m) ∧ ∀ x ∈ l, f x ≤ f m

/-- Every point of the contour lies inside the raster, as is the case for
every contour cv2.findContours reports for that raster. -/
def InBounds (ct : Contour) (r : Raster) : Prop :=
  ∀ p ∈ ct.points, p.1 < r.width ∧ p.2 < r.height

/-- Shape of the raster inside a successful Except result. -/
def okShape (r : Except CvErr Raster) : Option (Nat × Nat) :=
  match r with
  | .ok a => some (a.height, a.width)
  | .error _ => none

/-- Shape of the stored processed image inside a successful
run_preprocessing result. -/
def storedShape (r : Except CvErr ImageProcessing) :
    Option (Option (Nat × Nat)) :=
  match r with
  | .ok s => some (s.processed_image.map (fun a => (a.height, a.width)))
  | .error _ => none

deriving instance DecidableEq for Except

/-- A pixel-ops instantiation whose abstract pixel functions all return 0
and whose contour scanner finds nothing: used to evaluate the model on
concrete inputs. -/
def trivOps : CvOps :=
  ⟨fun _ _ _ _ => 0, fun _ _ _ _ _ => 0, fun _ _ _ _ _ _ _ _ => 0,
   fun _ _ _ => [], fun _ => 0, fun _ _ _ _ _ _ => 0, fun _ _ _ _ _ _ => 0⟩

/-- The one-point contour at the origin. -/
def ct0 : Contour := ⟨(0, 0), []⟩

/-- A pixel-ops instantiation whose contour scanner always reports the
single one-point contour ct0. -/
def oneContourOps : CvOps :=
  ⟨fun _ _ _ _ => 0, fun _ _ _ _ _ => 0, fun _ _ _ _ _ _ _ _ => 0,
   fun _ _ _ => [ct0], fun _ => 0, fun _ _ _ _ _ _ => 0,
   fun _ _ _ _ _ _ => 0⟩

/-- A 1 x 1 black input image. -/
def img1 : ColorRaster := ⟨1, 1, [[(0, 0, 0)]]⟩

/-- A 65-tall, 1-wide black input image: tall enough that the resized
width int(1 * (64 / 65.0)) is zero. -/
def tallImg : ColorRaster := ⟨65, 1, mkDataC 65 1 (fun _ _ => (0, 0, 0))⟩

/-- A 49 x 49 black input image: the shape at which the binary64 width
computation int(49 * (64 / 49.0)) = 63 differs from the exact floor
49 * 64 / 49 = 64. -/
def img49 : ColorRaster := ⟨49, 49, mkDataC 49 49 (fun _ _ => (0, 0, 0))⟩

/-- The 65 x 1 single-channel raster the tall image turns into by the time
it reaches height normalization under trivOps. -/
def tall65 : Raster := ⟨65, 1, mkData 65 1 (fun _ _ => 0)⟩

/-- The 1 x 1 single-channel raster the 1 x 1 image turns into by the time
it reaches height normalization under trivOps. -/
def binary1 : Raster := ⟨1, 1, [[0]]⟩

/-- The 64 x 64 zero raster: the processed output for the 1 x 1 image
under trivOps. -/
def out1 : Raster := ⟨64, 64, mkData 64 64 (fun _ _ => 0)⟩

/-- The object state after the successful run on the 1 x 1 image under
trivOps. -/
def s1w : ImageProcessing := ⟨img1, 5, 1, 255, 15, 2, 64, some out1⟩

theorem natsMin_le_init (l : List Nat) : ∀ a : Nat, natsMin a l ≤ a := by
  induction l with
  | nil => intro a; simp [natsMin]
  | cons b t ih =>
    intro a
    exact le_trans (ih (min a b)) (Nat.min_le_left a b)

theorem init_le_natsMax (l : List Nat) : ∀ a : Nat, a ≤ natsMax a l := by
  induction l with
  | nil => intro a; simp [natsMax]
  | cons b t ih =>
    intro a
    exact le_trans (Nat.le_max_left a b) (ih (max a b))

theorem natsMax_lt (l : List Nat) :
    ∀ a w : Nat, a < w → (∀ b ∈ l, b < w) → natsMax a l < w := by
  induction l with
  | nil => intro a w ha _; simpa [natsMax] using ha
  | cons b t ih =>
    intro a w ha hl
    have hb : b < w := hl b (by simp)
    have : max a b < w := by omega
    exact ih (max a b) w this (fun x hx => hl x (by simp [hx]))

theorem maxByFirst_isFirstMax (f : Contour → Nat) (l : List Contour) :
    ∀ b : Contour, IsFirstMax f (b :: l) (maxByFirst f b l) := by
  induction l with
  | nil =>
    intro b
    refine ⟨[], [], rfl, by simp, ?_⟩
    intro x hx
    simp only [List.mem_singleton] at hx
    subst hx
    simp [maxByFirst]
  | cons c t ih =>
    intro b
    by_cases hc : f b < f c
    · obtain ⟨l₁, l₂, hdec, hlt, hle⟩ := ih c
      have hm : maxByFirst f b (c :: t) = maxByFirst f c t := by
        simp [maxByFirst, hc]
      rw [hm]
      have hcle : f c ≤ f (maxByFirst f c t) := hle c (by simp)
      refine ⟨b :: l₁, l₂, ?_, ?_, ?_⟩
      · simpa using congrArg (List.cons b) hdec
      · intro x hx
        rcases List.mem_cons.mp hx with h | h
        · subst h; omega
        · exact hlt x h
      · intro x hx
        rcases List.mem_cons.mp hx with h | h
        · subst h; omega
        · exact hle x (hdec ▸ h)
    · obtain ⟨l₁, l₂, hdec, hlt, hle⟩ := ih b
      have hm : maxByFirst f b (c :: t) = maxByFirst f b t := by
        simp [maxByFirst, hc]
      rw [hm]
      have hcb : f c ≤ f b := Nat.le_of_not_lt hc
      have hble : f b ≤ f (maxByFirst f b t) := hle b (by simp)
      cases l₁ with
      | nil =>
        simp only [List.nil_append, List.cons.injEq] at hdec
        obtain ⟨hmb, hl₂⟩ := hdec
        subst hl₂
        refine ⟨[], c :: t, ?_, by simp, ?_⟩
        · simp [← hmb]
        · intro x hx
          rcases List.mem_cons.mp hx with h | h
          · subst h; exact hble
          · rcases List.mem_cons.mp h with h' | h'
            · subst h'; omega
            · exact hle x (List.mem_cons_of_mem b h')
      | cons a l₁' =>
        simp only [List.cons_append, List.cons.injEq] at hdec
        obtain ⟨hab, ht⟩ := hdec
        subst hab
        have hblt : f b < f (maxByFirst f b t) := hlt b (by simp)
        refine ⟨b :: c :: l₁', l₂, ?_, ?_, ?_⟩
        · conv_lhs => rw [ht]
          simp
        · intro x hx
          rcases List.mem_cons.mp hx with h | h
          · subst h; exact hblt
          · rcases List.mem_cons.mp h with h' | h'
            · subst h'; omega
            · exact hlt x (List.mem_cons_of_mem b h')
        · intro x hx
          rcases List.mem_cons.mp hx with h | h
          · subst h; exact hble
          · rcases List.mem_cons.mp h with h' | h'
            · subst h'; omega
            · exact hle x (List.mem_cons_of_mem b h')

theorem maxByFirst_mem (f : Contour → Nat) (b : Contour) (l : List Contour) :
    maxByFirst f b l ∈ b :: l := by
  obtain ⟨l₁, l₂, hdec, _, _⟩ := maxByFirst_isFirstMax f l b
  rw [hdec]
  simp

theorem allZero_zerosRaster (n m : Nat) : AllZero (zerosRaster n m) := by
  intro row hrow v hv
  simp only [zerosRaster, mkData, List.mem_map] at hrow
  obtain ⟨i, _, hrow⟩ := hrow
  rw [← hrow] at hv
  simp only [List.mem_map] at hv
  obtain ⟨j, _, hj⟩ := hv
  exact hj.symm

theorem cropOf_dims (binary : Raster) (ct : Contour)
    (h : InBounds ct binary) :
    (cropOf binary ct).height = (boundingRect ct).h
    ∧ (cropOf binary ct).width = (boundingRect ct).w
    ∧ 0 < (boundingRect ct).h ∧ 0 < (boundingRect ct).w := by
  have hfirst := h ct.first (by simp [Contour.points])
  have hxs : ∀ b ∈ ct.rest.map Prod.fst, b < binary.width := by
    intro b hb
    simp only [List.mem_map] at hb
    obtain ⟨p, hp, hb⟩ := hb
    have := h p (by simp [Contour.points, hp])
    omega
  have hys : ∀ b ∈ ct.rest.map Prod.snd, b < binary.height := by
    intro b hb
    simp only [List.mem_map] at hb
    obtain ⟨p, hp, hb⟩ := hb
    have := h p (by simp [Contour.points, hp])
    omega
  have hx1 : natsMax ct.first.1 (ct.rest.map Prod.fst) < binary.width :=
    natsMax_lt _ _ _ hfirst.1 hxs
  have hy1 : natsMax ct.first.2 (ct.rest.map Prod.snd) < binary.height :=
    natsMax_lt _ _ _ hfirst.2 hys
  have hx0 : natsMin ct.first.1 (ct.rest.map Prod.fst) ≤ ct.first.1 :=
    natsMin_le_init _ _
  have hy0 : natsMin ct.first.2 (ct.rest.map Prod.snd) ≤ ct.first.2 :=
    natsMin_le_init _ _
  have hx01 : ct.first.1 ≤ natsMax ct.first.1 (ct.rest.map Prod.fst) :=
    init_le_natsMax _ _
  have hy01 : ct.first.2 ≤ natsMax ct.first.2 (ct.rest.map Prod.snd) :=
    init_le_natsMax _ _
  simp only [cropOf, boundingRect, cropSlice]
  refine ⟨?_, ?_, ?_, ?_⟩ <;> omega

theorem rotateStage_dims (ops : CvOps) (binary : Raster) (ct : Contour) :
    (rotateStage ops binary ct).height = (cropOf binary ct).height
    ∧ (rotateStage ops binary ct).width = (cropOf binary ct).width :=
  ⟨rfl, rfl⟩

theorem runState_fields (ops : CvOps) (s : ImageProcessing) :
    (runState ops s).input_image = s.input_image
    ∧ (runState ops s).gaussian_kernal = s.gaussian_kernal
    ∧ (runState ops s).gaussian_sigma = s.gaussian_sigma
    ∧ (runState ops s).threshold_color = s.threshold_color
    ∧ (runState ops s).block_size = s.block_size
    ∧ (runState ops s).constant = s.constant
    ∧ (runState ops s).target_h = s.target_h := by
  unfold runState run_preprocessing
  cases h : pipelineOf ops s <;> simp

theorem pipelineOf_eq_of_fields (ops : CvOps) {s t : ImageProcessing}
    (h1 : s.input_image = t.input_image)
    (h2 : s.gaussian_kernal = t.gaussian_kernal)
    (h3 : s.gaussian_sigma = t.gaussian_sigma)
    (h4 : s.threshold_color = t.threshold_color)
    (h5 : s.block_size = t.block_size)
    (h6 : s.constant = t.constant)
    (h7 : s.target_h = t.target_h) :
    pipelineOf ops s = pipelineOf ops t := by
  unfold pipelineOf
  rw [h1, h2, h3, h4, h5, h6, h7]

theorem pipelineOf_runState (ops : CvOps) (s : ImageProcessing) :
    pipelineOf ops (runState ops s) = pipelineOf ops s := by
  obtain ⟨h1, h2, h3, h4, h5, h6, h7⟩ := runState_fields ops s
  exact pipelineOf_eq_of_fields ops h1 h2 h3 h4 h5 h6 h7

theorem runSeq_fields (ops : CvOps) (s : ImageProcessing) (n : Nat) :
    (runSeq ops s n).input_image = s.input_image
    ∧ (runSeq ops s n).gaussian_kernal = s.gaussian_kernal
    ∧ (runSeq ops s n).gaussian_sigma = s.gaussian_sigma
    ∧ (runSeq ops s n).threshold_color = s.threshold_color
    ∧ (runSeq ops s n).block_size = s.block_size
    ∧ (runSeq ops s n).constant = s.constant
    ∧ (runSeq ops s n).target_h = s.target_h := by
  induction n with
  | zero => exact ⟨rfl, rfl, rfl, rfl, rfl, rfl, rfl⟩
  | succ n ih =>
    obtain ⟨i1, i2, i3, i4, i5, i6, i7⟩ := ih
    obtain ⟨r1, r2, r3, r4, r5, r6, r7⟩ :=
      runState_fields ops (runSeq ops s n)
    exact ⟨r1.trans i1, r2.trans i2, r3.trans i3, r4.trans i4,
      r5.trans i5, r6.trans i6, r7.trans i7⟩

theorem pipelineOf_runSeq (ops : CvOps) (s : ImageProcessing) (n : Nat) :
    pipelineOf ops (runSeq ops s n) = pipelineOf ops s := by
  obtain ⟨h1, h2, h3, h4, h5, h6, h7⟩ := runSeq_fields ops s n
  exact pipelineOf_eq_of_fields ops h1 h2 h3 h4 h5 h6 h7

theorem runState_of_error (ops : CvOps) (s : ImageProcessing) (e : CvErr)
    (h : pipelineOf ops s = .error e) : runState ops s = s := by
  unfold runState run_preprocessing
  rw [h]

theorem runSeq_of_error (ops : CvOps) (s : ImageProcessing) (e : CvErr)
    (h : pipelineOf ops s = .error e) : ∀ n, runSeq ops s n = s := by
  intro n
  induction n with
  | zero => rfl
  | succ n ih =>
    show runState ops (runSeq ops s n) = s
    rw [ih]
    exact runState_of_error ops s e h

/-- Claim C1 (amended): for every run of the pipeline with the configured
target height 64, if either dimension of the raster entering height
normalization is zero the stored processed image is the all-zero 64 x 64
square; otherwise, whenever run_preprocessing succeeds, the stored image
has height exactly 64 and width equal to the binary64 computation
int(w0 * (64 / float(h0))) — which can fall one below the exact
floor(w0 * 64 / h0) — and is produced by the INTER_AREA resize of that
raster. -/
theorem c1_height_normalization (ops : CvOps) (img : ColorRaster)
    (a : Raster) (ha : adjustedOf ops img 5 1 255 15 2 = .ok a) :
    ((a.height = 0 ∨ a.width = 0) →
      run_preprocessing ops (ImageProcessing.init img)
        = .ok { ImageProcessing.init img with
            processed_image := some (zerosRaster 64 64) }
      ∧ (zerosRaster 64 64).height = 64 ∧ (zerosRaster 64 64).width = 64
      ∧ AllZero (zerosRaster 64 64))
    ∧ (a.height ≠ 0 → a.width ≠ 0 →
       ∀ s', run_preprocessing ops (ImageProcessing.init img) = .ok s' →
         s'.processed_image
           = some ⟨64, newWidth a.width a.height 64,
               mkData 64 (newWidth a.width a.height 64)
                 (ops.resizePix a (newWidth a.width a.height 64) 64
                   InterpFlag.area)⟩) := by
  have hp2 : pipelineOf ops (ImageProcessing.init img)
      = heightNormalize ops 64 a := by
    show pipeline ops img 5 1 255 15 2 64 = _
    unfold pipeline
    rw [ha]
    rfl
  constructor
  · intro hz
    have hhn : heightNormalize ops 64 a = .ok (zerosRaster 64 64) := by
      unfold heightNormalize
      rw [if_pos hz]
    have hpl : pipelineOf ops (ImageProcessing.init img)
        = .ok (zerosRaster 64 64) := hp2.trans hhn
    refine ⟨?_, rfl, rfl, allZero_zerosRaster 64 64⟩
    unfold run_preprocessing
    rw [hpl]
  · intro hh hw s' hs'
    have hnz : ¬(a.height = 0 ∨ a.width = 0) := by simp [hh, hw]
    have hhn : heightNormalize ops 64 a
        = cvResize ops a (newWidth a.width a.height 64) 64
            InterpFlag.area := by
      unfold heightNormalize
      rw [if_neg hnz]
    by_cases h0 : newWidth a.width a.height 64 = 0
    · have hpl : pipelineOf ops (ImageProcessing.init img)
          = .error CvErr.emptySize := by
        rw [hp2, hhn]
        unfold cvResize
        rw [if_pos (Or.inl h0)]
      unfold run_preprocessing at hs'
      rw [hpl] at hs'
      exact absurd hs' (by simp)
    · have hok : cvResize ops a (newWidth a.width a.height 64) 64
          InterpFlag.area
          = .ok ⟨64, newWidth a.width a.height 64,
              mkData 64 (newWidth a.width a.height 64)
                (ops.resizePix a (newWidth a.width a.height 64) 64
                  InterpFlag.area)⟩ := by
        unfold cvResize
        rw [if_neg (by simp [h0]), if_neg hnz]
      have hpl : pipelineOf ops (ImageProcessing.init img)
          = .ok ⟨64, newWidth a.width a.height 64,
              mkData 64 (newWidth a.width a.height 64)
                (ops.resizePix a (newWidth a.width a.height 64) 64
                  InterpFlag.area)⟩ := hp2.trans (hhn.trans hok)
      unfold run_preprocessing at hs'
      rw [hpl] at hs'
      simp only [Except.ok.injEq] at hs'
      rw [← hs']

/-- Claim C1, counterexample to the claim as stated: on a uniform 49 x 49
input (no contours found, so a 49 x 49 raster with both dimensions nonzero
enters height normalization) the stored processed width is 63, while the
claimed exact formula floor(49 * 64 / 49) gives 64: the code computes the
width in binary64 arithmetic, and int(49 * (64 / 49.0)) = 63. -/
theorem c1_counterexample :
    okShape (adjustedOf trivOps img49 5 1 255 15 2) = some (49, 49)
    ∧ storedShape (run_preprocessing trivOps (ImageProcessing.init img49))
        = some (some (64, 63))
    ∧ 49 * 64 / 49 = 64 := by
  refine ⟨by decide, by decide, by decide⟩

/-- Claim C1, witness: the amended theorem applied to the 1 x 1 input under
trivOps, whose adjusted raster is the non-degenerate 1 x 1 binary raster
and whose stored output is the 64 x 64 resize product. -/
theorem c1_witness :
    adjustedOf trivOps img1 5 1 255 15 2 = .ok binary1
    ∧ binary1.height ≠ 0 ∧ binary1.width ≠ 0
    ∧ run_preprocessing trivOps (ImageProcessing.init img1) = .ok s1w
    ∧ s1w.processed_image
        = some ⟨64, newWidth binary1.width binary1.height 64,
            mkData 64 (newWidth binary1.width binary1.height 64)
              (trivOps.resizePix binary1
                (newWidth binary1.width binary1.height 64) 64
                InterpFlag.area)⟩ := by
  have hA : adjustedOf trivOps img1 5 1 255 15 2 = .ok binary1 := by decide
  have hR : run_preprocessing trivOps (ImageProcessing.init img1)
      = .ok s1w := by decide
  exact ⟨hA, by decide, by decide, hR,
    (c1_height_normalization trivOps img1 binary1 hA).2 (by decide)
      (by decide) s1w hR⟩

/-- Claim C2: get_processed_image on a freshly constructed object (before
any successful run) fails with the not-yet-computed error; after a
successful run_preprocessing the object always holds a stored raster and
get_processed_image returns exactly that raster without error. -/
theorem c2_accessor (ops : CvOps) (img : ColorRaster)
    (s' : ImageProcessing) :
    get_processed_image (ImageProcessing.init img)
      = .error ProcErr.notProcessed
    ∧ (run_preprocessing ops (ImageProcessing.init img) = .ok s' →
        s'.processed_image.isSome = true
        ∧ ∀ r, s'.processed_image = some r →
            get_processed_image s' = .ok r) := by
  refine ⟨rfl, ?_⟩
  intro hs'
  unfold run_preprocessing at hs'
  cases hp : pipelineOf ops (ImageProcessing.init img) with
  | error e => rw [hp] at hs'; exact absurd hs' (by simp)
  | ok out =>
    rw [hp] at hs'
    simp only [Except.ok.injEq] at hs'
    constructor
    · rw [← hs']
      rfl
    · intro r hr
      unfold get_processed_image
      rw [hr]

/-- Claim C2, witness: the accessor theorem applied to the 1 x 1 input
under trivOps: the fresh object errors, the object after the successful
run returns the stored 64 x 64 raster. -/
theorem c2_witness :
    get_processed_image (ImageProcessing.init img1)
      = .error ProcErr.notProcessed
    ∧ get_processed_image s1w = .ok out1 := by
  have h := c2_accessor trivOps img1 s1w
  exact ⟨h.1, (h.2 (by decide)).2 out1 rfl⟩

/-- Claim C4: when findContours reports no external contour, the contour
stage passes the full binary raster through unchanged, the raster entering
height normalization is that binary raster itself, and the pipeline result
is height normalization applied to it. -/
theorem c4_no_contour (ops : CvOps) (image : ColorRaster)
    (gk gs tc bs ct : Nat) (binary : Raster)
    (hb : binaryOf ops image gk gs tc bs ct = .ok binary)
    (hfc : ops.findContours binary RetrMode.external ApproxMethod.simple
      = []) :
    contourStage ops binary = binary
    ∧ adjustedOf ops image gk gs tc bs ct = .ok binary
    ∧ ∀ tH, pipeline ops image gk gs tc bs ct tH
        = heightNormalize ops tH binary := by
  have hcs : contourStage ops binary = binary := by
    unfold contourStage
    rw [hfc]
  have hadj : adjustedOf ops image gk gs tc bs ct = .ok binary := by
    unfold adjustedOf
    rw [hb]
    show Except.ok (contourStage ops binary) = _
    rw [hcs]
  refine ⟨hcs, hadj, ?_⟩
  intro tH
  unfold pipeline
  rw [hadj]
  rfl

/-- Claim C4, witness: the no-contour theorem applied to the 1 x 1 input
under trivOps, whose contour scanner finds nothing. -/
theorem c4_witness :
    binaryOf trivOps img1 5 1 255 15 2 = .ok binary1
    ∧ trivOps.findContours binary1 RetrMode.external ApproxMethod.simple
        = []
    ∧ contourStage trivOps binary1 = binary1
    ∧ adjustedOf trivOps img1 5 1 255 15 2 = .ok binary1
    ∧ pipeline trivOps img1 5 1 255 15 2 64
        = heightNormalize trivOps 64 binary1 := by
  have hb : binaryOf trivOps img1 5 1 255 15 2 = .ok binary1 := by decide
  have h := c4_no_contour trivOps img1 5 1 255 15 2 binary1 hb rfl
  exact ⟨hb, rfl, h.1, h.2.1, h.2.2 64⟩

/-- Claim C5: any exception inside run_preprocessing propagates to the
caller, and after such a failed run — on any object reached from
construction by any number of prior run_preprocessing calls — the object
is still the freshly constructed one: no partial state is retained, the
state is Unprocessed, and get_processed_image fails with the
not-yet-computed error.  (The pipeline being a deterministic function of
the input captured at construction, a failed run can never follow an
earlier successful one on an unmodified object, so the state after a
failed run is always the initial state.) -/
theorem c5_failed_run (ops : CvOps) (img : ColorRaster) (n : Nat)
    (e : CvErr)
    (h : run_preprocessing ops (runSeq ops (ImageProcessing.init img) n)
      = .error e) :
    get_processed_image (runSeq ops (ImageProcessing.init img) n)
      = .error ProcErr.notProcessed
    ∧ runState ops (runSeq ops (ImageProcessing.init img) n)
        = runSeq ops (ImageProcessing.init img) n
    ∧ runSeq ops (ImageProcessing.init img) n = ImageProcessing.init img := by
  have hpn : pipelineOf ops (runSeq ops (ImageProcessing.init img) n)
      = .error e := by
    unfold run_preprocessing at h
    cases hp : pipelineOf ops (runSeq ops (ImageProcessing.init img) n) with
    | error e' =>
      rw [hp] at h
      simp only [Except.error.injEq] at h
      rw [h]
    | ok out => rw [hp] at h; exact absurd h (by simp)
  have hp0 : pipelineOf ops (ImageProcessing.init img) = .error e := by
    rw [← pipelineOf_runSeq ops (ImageProcessing.init img) n]
    exact hpn
  have hfix : runSeq ops (ImageProcessing.init img) n
      = ImageProcessing.init img :=
    runSeq_of_error ops (ImageProcessing.init img) e hp0 n
  refine ⟨?_, ?_, hfix⟩
  · rw [hfix]
    rfl
  · rw [hfix]
    exact runState_of_error ops (ImageProcessing.init img) e hp0

/-- Claim C5, witness: on the 65-tall, 1-wide input under trivOps the very
first run fails (the resize is called with destination width
int(1 * (64 / 65.0)) = 0), the error propagates, and the object still
reports not-yet-computed. -/
theorem c5_witness :
    run_preprocessing trivOps (runSeq trivOps (ImageProcessing.init tallImg) 0)
      = .error CvErr.emptySize
    ∧ get_processed_image (runSeq trivOps (ImageProcessing.init tallImg) 0)
        = .error ProcErr.notProcessed
    ∧ runState trivOps (runSeq trivOps (ImageProcessing.init tallImg) 0)
        = runSeq trivOps (ImageProcessing.init tallImg) 0
    ∧ runSeq trivOps (ImageProcessing.init tallImg) 0
        = ImageProcessing.init tallImg := by
  have h : run_preprocessing trivOps
      (runSeq trivOps (ImageProcessing.init tallImg) 0)
      = .error CvErr.emptySize := by decide
  have hc := c5_failed_run trivOps tallImg 0 CvErr.emptySize h
  exact ⟨h, hc.1, hc.2.1, hc.2.2⟩

/-- Claim C6 (amended): height normalization never raises when either
dimension of the incoming raster is zero — it emits the all-zero
target-side square — and on a raster with both dimensions nonzero it
completes exactly when the binary64 destination width
int(w0 * (tH / float(h0))) is nonzero; when that width comes out zero
(extreme aspect ratio, 64 * w0 < h0 for the default target), the resize
call raises the empty-size error, so the stage is NOT raise-free for every
degenerate geometry. -/
theorem c6_degenerate_fallback (ops : CvOps) (tH : Nat) (a : Raster)
    (htH : 0 < tH) :
    ((a.height = 0 ∨ a.width = 0) →
      heightNormalize ops tH a = .ok (zerosRaster tH tH))
    ∧ (a.height ≠ 0 → a.width ≠ 0 → newWidth a.width a.height tH ≠ 0 →
        heightNormalize ops tH a
          = .ok ⟨tH, newWidth a.width a.height tH,
              mkData tH (newWidth a.width a.height tH)
                (ops.resizePix a (newWidth a.width a.height tH) tH
                  InterpFlag.area)⟩)
    ∧ (a.height ≠ 0 → a.width ≠ 0 → newWidth a.width a.height tH = 0 →
        heightNormalize ops tH a = .error CvErr.emptySize) := by
  refine ⟨?_, ?_, ?_⟩
  · intro hz
    unfold heightNormalize
    rw [if_pos hz]
  · intro hh hw h0
    have hnz : ¬(a.height = 0 ∨ a.width = 0) := by simp [hh, hw]
    unfold heightNormalize
    rw [if_neg hnz]
    unfold cvResize
    rw [if_neg (by omega), if_neg hnz]
  · intro hh hw h0
    have hnz : ¬(a.height = 0 ∨ a.width = 0) := by simp [hh, hw]
    unfold heightNormalize
    rw [if_neg hnz]
    unfold cvResize
    rw [if_pos (Or.inl h0)]

/-- Claim C6, counterexample to the claim as stated: the 65-tall, 1-wide
uniform input takes the contour-absent path, so the full 65 x 1 binary
raster (both dimensions nonzero, extreme aspect ratio) reaches height
normalization, where cv2.resize is called with destination width
int(1 * (64 / 65.0)) = 0 and raises — the stage does not complete and no
output is stored. -/
theorem c6_counterexample :
    okShape (adjustedOf trivOps tallImg 5 1 255 15 2) = some (65, 1)
    ∧ newWidth 1 65 64 = 0
    ∧ heightNormalize trivOps 64 tall65 = .error CvErr.emptySize
    ∧ run_preprocessing trivOps (ImageProcessing.init tallImg)
        = .error CvErr.emptySize := by
  refine ⟨by decide, by decide, by decide, by decide⟩

/-- Claim C6, witness: the amended theorem applied to the 65 x 1 raster at
target height 64, landing in the raising branch. -/
theorem c6_witness :
    0 < 64
    ∧ tall65.height ≠ 0 ∧ tall65.width ≠ 0
    ∧ newWidth tall65.width tall65.height 64 = 0
    ∧ heightNormalize trivOps 64 tall65 = .error CvErr.emptySize := by
  refine ⟨by decide, by decide, by decide, by decide, ?_⟩
  exact (c6_degenerate_fallback trivOps 64 tall65 (by decide)).2.2
    (by decide) (by decide) (by decide)

theorem runState_of_ok (ops : CvOps) (s : ImageProcessing) (out : Raster)
    (h : pipelineOf ops s = .ok out) :
    runState ops s = { s with processed_image := some out } := by
  unfold runState run_preprocessing
  rw [h]

/-- Claim C8: run_preprocessing is deterministic and re-running is
idempotent: the pipeline value recomputed by a second run on the same
unmodified object is identical to the first run's (the pipeline reads only
the input image and the configuration, which a run never changes), and the
object state after two runs is bit-identical to the state after one — in
particular the stored processed image does not accumulate across runs. -/
theorem c8_deterministic_idempotent (ops : CvOps) (s : ImageProcessing) :
    pipelineOf ops (runState ops s) = pipelineOf ops s
    ∧ runState ops (runState ops s) = runState ops s
    ∧ (runState ops (runState ops s)).processed_image
        = (runState ops s).processed_image := by
  have h1 := pipelineOf_runState ops s
  have h2 : runState ops (runState ops s) = runState ops s := by
    cases hp : pipelineOf ops s with
    | error e =>
      have hs := runState_of_error ops s e hp
      rw [hs]
      exact hs
    | ok out =>
      have hs := runState_of_ok ops s out hp
      have hp2 : pipelineOf ops (runState ops s) = .ok out := h1.trans hp
      rw [runState_of_ok ops (runState ops s) out hp2, hs]
  exact ⟨h1, h2, congrArg ImageProcessing.processed_image h2⟩

/-- Claim C9: run_preprocessing never mutates the input raster captured at
construction: after any number of runs the stored input image is
bit-identical to the one supplied to the constructor, and a single run
leaves the input field of any object unchanged. -/
theorem c9_input_not_mutated (ops : CvOps) (img : ColorRaster) (n : Nat) :
    (runSeq ops (ImageProcessing.init img) n).input_image = img
    ∧ ∀ s : ImageProcessing,
        (runState ops s).input_image = s.input_image := by
  exact ⟨(runSeq_fields ops (ImageProcessing.init img) n).1,
    fun s => (runState_fields ops s).1⟩

/-- Claim C3: when binarization yields contours, the single detection pass
selects the FIRST contour of maximal enclosed area (Python max keeps the
first maximal element), the crop window is that contour's axis-aligned
bounding rectangle, and the rotation angle is minAreaRect's angle of that
SAME contour — taken from the raw full-image point coordinates, never
translated into the cropped frame. -/
theorem c3_detection (ops : CvOps) (binary : Raster) (c : Contour)
    (cs : List Contour)
    (hfc : ops.findContours binary RetrMode.external ApproxMethod.simple
      = c :: cs) :
    IsFirstMax contourArea2 (c :: cs) (maxByFirst contourArea2 c cs)
    ∧ contourStage ops binary
        = warpAffine ops (cropOf binary (maxByFirst contourArea2 c cs))
            (getRotationMatrix2D
              ((cropOf binary (maxByFirst contourArea2 c cs)).width / 2,
               (cropOf binary (maxByFirst contourArea2 c cs)).height / 2)
              (ops.minAreaRectAngle (maxByFirst contourArea2 c cs)) 1)
            ((cropOf binary (maxByFirst contourArea2 c cs)).width,
             (cropOf binary (maxByFirst contourArea2 c cs)).height)
            InterpFlag.cubic BorderMode.replicate := by
  refine ⟨maxByFirst_isFirstMax contourArea2 cs c, ?_⟩
  unfold contourStage
  rw [hfc]
  rfl

/-- Claim C3, witness: the detection theorem applied to a scanner reporting
the single one-point contour ct0 on the 1 x 1 binary raster. -/
theorem c3_witness :
    oneContourOps.findContours binary1 RetrMode.external ApproxMethod.simple
      = [ct0]
    ∧ IsFirstMax contourArea2 [ct0] (maxByFirst contourArea2 ct0 [])
    ∧ contourStage oneContourOps binary1
        = warpAffine oneContourOps
            (cropOf binary1 (maxByFirst contourArea2 ct0 []))
            (getRotationMatrix2D
              ((cropOf binary1 (maxByFirst contourArea2 ct0 [])).width / 2,
               (cropOf binary1 (maxByFirst contourArea2 ct0 [])).height / 2)
              (oneContourOps.minAreaRectAngle (maxByFirst contourArea2 ct0 []))
              1)
            ((cropOf binary1 (maxByFirst contourArea2 ct0 [])).width,
             (cropOf binary1 (maxByFirst contourArea2 ct0 [])).height)
            InterpFlag.cubic BorderMode.replicate := by
  have h := c3_detection oneContourOps binary1 ct0 [] rfl
  exact ⟨rfl, h.1, h.2⟩

/-- Claim C7: on the contour-present path the rotation stage rotates the
cropped binary raster about (w_crop // 2, h_crop // 2) by the estimated
skew angle at unit scale, with bicubic (INTER_CUBIC) resampling and
replicated (BORDER_REPLICATE) border pixels, onto a destination canvas of
exactly the crop's width and height, so the rotated raster keeps the
pre-rotation crop's dimensions. -/
theorem c7_rotation (ops : CvOps) (binary : Raster) (c : Contour)
    (cs : List Contour)
    (hfc : ops.findContours binary RetrMode.external ApproxMethod.simple
      = c :: cs) :
    contourStage ops binary
      = warpAffine ops (cropOf binary (maxByFirst contourArea2 c cs))
          (getRotationMatrix2D
            ((cropOf binary (maxByFirst contourArea2 c cs)).width / 2,
             (cropOf binary (maxByFirst contourArea2 c cs)).height / 2)
            (ops.minAreaRectAngle (maxByFirst contourArea2 c cs)) 1)
          ((cropOf binary (maxByFirst contourArea2 c cs)).width,
           (cropOf binary (maxByFirst contourArea2 c cs)).height)
          InterpFlag.cubic BorderMode.replicate
    ∧ (contourStage ops binary).width
        = (cropOf binary (maxByFirst contourArea2 c cs)).width
    ∧ (contourStage ops binary).height
        = (cropOf binary (maxByFirst contourArea2 c cs)).height := by
  have heq : contourStage ops binary
      = rotateStage ops binary (maxByFirst contourArea2 c cs) := by
    unfold contourStage
    rw [hfc]
  exact ⟨heq, by rw [heq]; rfl, by rw [heq]; rfl⟩

/-- Claim C7, witness: the rotation theorem applied to the one-contour
scanner on the 1 x 1 binary raster. -/
theorem c7_witness :
    oneContourOps.findContours binary1 RetrMode.external ApproxMethod.simple
      = [ct0]
    ∧ (contourStage oneContourOps binary1).width
        = (cropOf binary1 (maxByFirst contourArea2 ct0 [])).width
    ∧ (contourStage oneContourOps binary1).height
        = (cropOf binary1 (maxByFirst contourArea2 ct0 [])).height := by
  have h := c7_rotation oneContourOps binary1 ct0 [] rfl
  exact ⟨rfl, h.2.1, h.2.2⟩

/-- Claim C10: whenever at least one contour is found (all contour points
lying inside the raster, as cv2.findContours guarantees), the cropped
raster has positive width and height, rotation preserves those dimensions,
so the raster entering height normalization has both dimensions positive:
the zero-dimension fallback branch is unreachable on the contour-present
path and height normalization reduces to the resize call. -/
theorem c10_contour_present_resize_path (ops : CvOps) (binary : Raster)
    (c : Contour) (cs : List Contour) (tH : Nat)
    (hfc : ops.findContours binary RetrMode.external ApproxMethod.simple
      = c :: cs)
    (hin : ∀ ct ∈ c :: cs, InBounds ct binary) :
    0 < (contourStage ops binary).height
    ∧ 0 < (contourStage ops binary).width
    ∧ heightNormalize ops tH (contourStage ops binary)
        = cvResize ops (contourStage ops binary)
            (newWidth (contourStage ops binary).width
              (contourStage ops binary).height tH) tH InterpFlag.area := by
  have hib : InBounds (maxByFirst contourArea2 c cs) binary :=
    hin _ (maxByFirst_mem contourArea2 c cs)
  obtain ⟨hch, hcw, hbh, hbw⟩ := cropOf_dims binary _ hib
  have heq : contourStage ops binary
      = rotateStage ops binary (maxByFirst contourArea2 c cs) := by
    unfold contourStage
    rw [hfc]
  have hH : (contourStage ops binary).height
      = (cropOf binary (maxByFirst contourArea2 c cs)).height := by
    rw [heq]
    rfl
  have hW : (contourStage ops binary).width
      = (cropOf binary (maxByFirst contourArea2 c cs)).width := by
    rw [heq]
    rfl
  have h1 : 0 < (contourStage ops binary).height := by
    rw [hH, hch]
    exact hbh
  have h2 : 0 < (contourStage ops binary).width := by
    rw [hW, hcw]
    exact hbw
  refine ⟨h1, h2, ?_⟩
  unfold heightNormalize
  rw [if_neg (by omega)]

/-- Claim C10, witness: the theorem applied to the one-contour scanner on
the 1 x 1 binary raster at target height 64. -/
theorem c10_witness :
    oneContourOps.findContours binary1 RetrMode.external ApproxMethod.simple
      = [ct0]
    ∧ (∀ ct ∈ [ct0], InBounds ct binary1)
    ∧ 0 < (contourStage oneContourOps binary1).height
    ∧ 0 < (contourStage oneContourOps binary1).width
    ∧ heightNormalize oneContourOps 64 (contourStage oneContourOps binary1)
        = cvResize oneContourOps (contourStage oneContourOps binary1)
            (newWidth (contourStage oneContourOps binary1).width
              (contourStage oneContourOps binary1).height 64) 64
            InterpFlag.area := by
  have hin : ∀ ct ∈ [ct0], InBounds ct binary1 := by
    intro ct hct p hp
    simp only [List.mem_singleton] at hct
    subst hct
    simp only [ct0, Contour.points, List.mem_singleton] at hp
    subst hp
    exact ⟨by decide, by decide⟩
  have h := c10_contour_present_resize_path oneContourOps binary1 ct0 [] 64
    rfl hin
  exact ⟨rfl, hin, h.1, h.2.1, h.2.2⟩
